import Mathlib

/-!
Shallow embedding of the sofa-mosn health-check engine and its collaborators:
the stats store (`NewStats`, `mapEqual`), the reusable cancellable timer, the
router header utility (`getRouterHeaders`) and the health-check orchestrator
(`healthChecker` with `startCheck` / `stopCheck` / `Stop` /
`OnClusterMemberUpdate` / `incHealthy` / `decHealthy` / `getCheckInterval`,
and the construction functions `newHealthChecker` / `CreateHealthCheck`).

Go maps with string keys are modelled as association lists with the map's
first-match lookup and single-entry delete; reachable Go states have distinct
keys, which theorems assume explicitly where it matters.  Go `time.Duration`
and `int64` are modelled as `Int`.  Process-global registries (session
factories, common callbacks) and the seeded random generator become explicit
parameters or fields.  Logging, goroutine spawning and mutexes are not part
of the state model; the mutex-guarded critical sections are modelled as
atomic state transformations, matching the source's locking discipline.
-/

/-- Association-list lookup with first-match semantics, modelling lookup in a
Go map with string keys. -/
def assocLookup {α : Type} : List (String × α) → String → Option α
  | [], _ => none
  | (k, v) :: rest, a => if k = a then some v else assocLookup rest a

/-- Association-list delete removing the first entry with the given key,
modelling `delete(m, k)` on a Go map (which holds at most one entry per key). -/
def assocErase {α : Type} : List (String × α) → String → List (String × α)
  | [], _ => []
  | (k, v) :: rest, a => if k = a then rest else (k, v) :: assocErase rest a

/-! ## Stats store (package stats, src/unnamed/part_000) -/

/-- Label map of a metrics instance, modelling `map[string]string`. -/
abbrev LabelMap := List (String × String)

/-- Constant `maxLabelCount = 10` from src/unnamed/part_000. -/
def maxLabelCount : Nat := 10

/-- Error values returned by `NewStats`; `labelCountExceeded` models the
package-level `errLabelCountExceeded`. -/
inductive StatsError where
  | labelCountExceeded
deriving DecidableEq

/-- Metrics instance `Stats` from src/unnamed/part_000, keeping the fields
`typ` and `labels` that drive deduplication; the wrapped go-metrics registry
and the cached sorted-label slices are external collaborators outside this
model. -/
structure Stats where
  typ : String
  labels : LabelMap
deriving DecidableEq

/-- Function `mapEqual` from src/unnamed/part_000: false on differing sizes,
otherwise every entry of `x` must be found in `y` with the same value. -/
def mapEqual (x y : LabelMap) : Bool :=
  if x.length ≠ y.length then false
  else x.all fun kv => decide (assocLookup y kv.1 = some kv.2)

/-- Function `NewStats` from src/unnamed/part_000, with the global
`defaultStore.metrics` slice passed in and returned explicitly.  Rejects
label maps larger than `maxLabelCount`, otherwise returns the first stored
instance with the same type and an equal label map, or appends and returns a
fresh instance.  The Go return convention `(nil, err)` / `(metric, nil)` is
rendered as `Except`. -/
def NewStats (st : List Stats) (typ : String) (labels : LabelMap) :
    List Stats × Except StatsError Stats :=
  if labels.length > maxLabelCount then
    (st, Except.error StatsError.labelCountExceeded)
  else
    match st.find? (fun m => m.typ == typ && mapEqual m.labels labels) with
    | some m => (st, Except.ok m)
    | none =>
      (st ++ [{ typ := typ, labels := labels }],
       Except.ok { typ := typ, labels := labels })

/-! ## Router header utility (src/pkg/router/utility.go) -/

/-- Header matcher configuration `v2.HeaderMatcher` (fields used by
`getRouterHeaders`). -/
structure HeaderMatcher where
  name : String
  value : String
  regex : Bool
deriving DecidableEq

/-- Compiled regular expression handle; the compiler itself is an external
collaborator and is passed to `getRouterHeaders` as an oracle. -/
structure CompiledRegex where
  pattern : String
deriving DecidableEq

/-- Output entry `types.HeaderData` (fields set by `getRouterHeaders`); the
`lowerCaseString` wrapper around the name holds the raw string, since
`getRouterHeaders` never calls `Lower()` on it. -/
structure HeaderData where
  name : String
  value : String
  isRegex : Bool
  regexPattern : Option CompiledRegex
deriving DecidableEq

/-- Loop body of `getRouterHeaders` for one header matcher.  The `compile`
oracle models `regexp.Compile`: `some r` stands for a successful compile
(`err = nil`), `none` for a failed one (`pattern = nil, err ≠ nil`).  The
source tests `err != nil` and in that branch stores the (nil) pattern and
appends the entry; in the `err = nil` branch it logs a compile error and
skips the entry with `continue`. -/
def getRouterHeadersStep (compile : String → Option CompiledRegex)
    (headerDatas : List HeaderData) (header : HeaderMatcher) : List HeaderData :=
  if header.regex then
    match compile header.name with
    | none =>
      -- err ≠ nil branch: RegexPattern is assigned the nil pattern
      headerDatas ++
        [{ name := header.name, value := header.value,
           isRegex := header.regex, regexPattern := none }]
    | some _ =>
      -- err = nil branch: log and continue, entry dropped
      headerDatas
  else
    headerDatas ++
      [{ name := header.name, value := header.value,
         isRegex := header.regex, regexPattern := none }]

/-- Function `getRouterHeaders` from src/pkg/router/utility.go: the loop over
the configured header matchers, starting from the empty slice. -/
def getRouterHeaders (compile : String → Option CompiledRegex)
    (headers : List HeaderMatcher) : List HeaderData :=
  headers.foldl (getRouterHeadersStep compile) []

/-- Statement of claim C10 as a function: a matcher with `Regex` set is kept
(with a nil pattern) exactly when compilation of its name fails and dropped
when it succeeds, while a matcher without `Regex` is always kept.  Written
from the claim's words, to be compared with `getRouterHeaders`. -/
def getRouterHeadersSpec (compile : String → Option CompiledRegex)
    (headers : List HeaderMatcher) : List HeaderData :=
  headers.filterMap fun header =>
    if header.regex then
      match compile header.name with
      | none =>
        some { name := header.name, value := header.value,
               isRegex := header.regex, regexPattern := none }
      | some _ => none
    else
      some { name := header.name, value := header.value,
             isRegex := header.regex, regexPattern := none }

/-! ## Reusable cancellable timer (package sofarpc, src/unnamed/part_001) -/

/-- State of the `timer` from src/unnamed/part_001: the `started` and
`stopped` atomic flags, the number of tokens in the buffered (capacity 1)
`stopChan`, whether a spawned worker goroutine is waiting in the `select`
(`armed`), how many times the callback has been invoked, and whether a
`stop()` call is blocked sending into a full channel. -/
structure TimerState where
  started : Bool
  stopped : Bool
  chanTokens : Nat
  armed : Bool
  callbackFires : Nat
  stopBlocked : Bool
deriving DecidableEq

/-- State produced by `newTimer`: flags clear, channel empty, no worker. -/
def newTimerState : TimerState :=
  { started := false, stopped := false, chanTokens := 0,
    armed := false, callbackFires := 0, stopBlocked := false }

/-- Transition of `timer.start(interval)`: a failed compare-and-swap of
`started` from 0 to 1 returns immediately; otherwise the inner timer is
created or reset and a worker goroutine is spawned to wait in the `select`
(the interval length itself is abstracted into the `timerElapse` step). -/
def timerStart (t : TimerState) : TimerState :=
  if t.started then t
  else { t with started := true, armed := true }

/-- Transition of `timer.stop()`: a failed compare-and-swap of `stopped`
from 0 to 1 returns immediately; otherwise a token is sent into `stopChan`,
which blocks when the single-slot buffer is already full. -/
def timerStop (t : TimerState) : TimerState :=
  if t.stopped then t
  else
    let t1 := { t with stopped := true }
    if t1.chanTokens < 1 then { t1 with chanTokens := t1.chanTokens + 1 }
    else { t1 with stopBlocked := true }

/-- Transition of the worker goroutine resolving its `select` once the armed
interval has fully elapsed: a token already present in `stopChan` is consumed
and the callback is not invoked; with an empty channel the inner timer's fire
wins and the callback runs once.  Either way the deferred block then stops
the inner timer and clears both atomic flags. -/
def timerElapse (t : TimerState) : TimerState :=
  if t.armed then
    let t1 :=
      if t.chanTokens > 0 then { t with chanTokens := t.chanTokens - 1 }
      else { t with callbackFires := t.callbackFires + 1 }
    { t1 with started := false, stopped := false, armed := false }
  else t

/-! ## Health-check orchestrator (src/pkg/upstream/healthcheck/factory.go) -/

/-- Upstream host; only `AddressString()` is consumed by the orchestrator. -/
structure Host where
  addressString : String
deriving DecidableEq

/-- Opaque session configuration blob (`map[string]interface{}` in the
source), passed through to the session factory unexamined. -/
abbrev SessionConfig := List (String × String)

/-- Health-check probe session; its probe behaviour is outside the
orchestrator-level claims, so only its identity (the host it was built for)
is kept. -/
structure Session where
  host : Host
deriving DecidableEq

/-- Session factory capability `NewSession(config, host) → Session | nil`,
with `nil` rendered as `none`. -/
structure SessionFactory where
  newSession : SessionConfig → Host → Option Session

/-- Per-host checker as seen by the orchestrator: `newChecker(s, h, hc)`
stores the session and the host (the back-reference to the owner and the
checker's own probe-loop state are not part of the orchestrator state). -/
structure Checker where
  session : Session
  host : Host
deriving DecidableEq

/-- Function `newChecker` restricted to the orchestrator-visible fields. -/
def newChecker (s : Session) (h : Host) : Checker :=
  { session := s, host := h }

/-- Modelled from the spec: the `healthCheckStats` record is defined outside
src/; per §6 it is the fixed set of named gauges/counters obtained per
cluster service name — `healthy` (gauge) and the `success`, `failure`,
`activeFailure`, `networkFailure`, `passiveFailure` counters.  `Inc(1)` adds
one to a counter and `Update(v)` sets the gauge. -/
structure HealthCheckStats where
  healthy : Int
  success : Int
  failure : Int
  activeFailure : Int
  networkFailure : Int
  passiveFailure : Int
deriving DecidableEq

/-- Modelled from the spec: `newHealthCheckStats(serviceName)` is defined
outside src/; it obtains the per-cluster metrics, whose counters and gauge
start at zero. -/
def newHealthCheckStats (_serviceName : String) : HealthCheckStats :=
  { healthy := 0, success := 0, failure := 0,
    activeFailure := 0, networkFailure := 0, passiveFailure := 0 }

/-- Failure classification `types.FailureType`; the three values consumed by
`decHealthy` in the source. -/
inductive FailureType where
  | failureActive
  | failureNetwork
  | failurePassive
deriving DecidableEq

/-- Registered health-check callback; invocation is recorded as an event
rather than executed, so a callback is modelled by an identifier. -/
abbrev HealthCheckCb := Nat

/-- Record of one callback invocation with its arguments
`(host, changed, isHealthy)`. -/
structure CbEvent where
  cb : HealthCheckCb
  host : Host
  changed : Bool
  isHealthy : Bool
deriving DecidableEq

/-- Cluster collaborator: `PrioritySet().HostSetsByPriority()` supplies the
ordered priority groups of hosts. -/
structure Cluster where
  hostSetsByPriority : List (List Host)
deriving DecidableEq

/-- Hosts of a cluster in the order `Start`/`Stop` visit them: every host of
every priority group. -/
def clusterHosts (c : Cluster) : List Host :=
  c.hostSetsByPriority.flatten

/-- Health-check configuration `v2.HealthCheck` (fields consumed by
`newHealthChecker` and `CreateHealthCheck`). -/
structure HealthCheckConfig where
  protocol : String
  timeout : Int
  interval : Int
  intervalJitter : Int
  healthyThreshold : Nat
  unhealthyThreshold : Nat
  serviceName : String
  sessionConfig : SessionConfig
  commonCallbacks : List String

/-- Constant `DefaultTimeout = time.Second` in nanoseconds. -/
def DefaultTimeout : Int := 1000000000

/-- Constant `DefaultInterval = 15 * time.Second` in nanoseconds. -/
def DefaultInterval : Int := 15000000000

/-- Orchestrator state `healthChecker` from factory.go.  The `rander` field
models the seeded `*rand.Rand`: applied to a positive bound `n` it yields the
draw `Int63n(n)` of the generator's current state.  The mutex is not state;
its critical sections are the atomic transitions below. -/
structure HealthChecker where
  sessionConfig : SessionConfig
  cluster : Cluster
  sessionFactory : SessionFactory
  checkers : List (String × Checker)
  localProcessHealthy : Int
  stats : HealthCheckStats
  timeout : Int
  intervalBase : Int
  intervalJitter : Int
  healthyThreshold : Nat
  unhealthyThreshold : Nat
  rander : Int → Int
  hostCheckCallbacks : List HealthCheckCb

/-- Function `newHealthChecker` from factory.go: defaults applied to zero
timeout and interval, empty checker map, zero healthy count, fresh stats,
and the configured common callbacks attached in order when the process-wide
`commonCallbacks` registry (passed explicitly, defined outside src/) knows
their names. -/
def newHealthChecker (commonCbs : String → Option HealthCheckCb)
    (rander : Int → Int) (cfg : HealthCheckConfig) (cluster : Cluster)
    (f : SessionFactory) : HealthChecker :=
  { sessionConfig := cfg.sessionConfig
    cluster := cluster
    sessionFactory := f
    checkers := []
    localProcessHealthy := 0
    stats := newHealthCheckStats cfg.serviceName
    timeout := if cfg.timeout = 0 then DefaultTimeout else cfg.timeout
    intervalBase := if cfg.interval = 0 then DefaultInterval else cfg.interval
    intervalJitter := cfg.intervalJitter
    healthyThreshold := cfg.healthyThreshold
    unhealthyThreshold := cfg.unhealthyThreshold
    rander := rander
    hostCheckCallbacks :=
      cfg.commonCallbacks.foldl
        (fun acc name =>
          match commonCbs name with
          | some cb => acc ++ [cb]
          | none => acc)
        [] }

/-- Modelled from the spec: `TCPDialSessionFactory` is defined outside src/;
it is the default TCP-dial session factory, producing a dial-probe session
for any host. -/
def TCPDialSessionFactory : SessionFactory :=
  { newSession := fun _ host => some { host := host } }

/-- Function `CreateHealthCheck` from factory.go, with the process-wide
`sessionFactories` registry passed in: the factory registered for the
configured protocol, or the default `TCPDialSessionFactory` when none is
registered, is handed to `newHealthChecker`. -/
def CreateHealthCheck (registry : String → Option SessionFactory)
    (commonCbs : String → Option HealthCheckCb) (rander : Int → Int)
    (cfg : HealthCheckConfig) (cluster : Cluster) : HealthChecker :=
  match registry cfg.protocol with
  | some f => newHealthChecker commonCbs rander cfg cluster f
  | none => newHealthChecker commonCbs rander cfg cluster TCPDialSessionFactory

/-- Function `healthChecker.startCheck` from factory.go: under the mutex, a
host whose address already has a checker is left untouched; otherwise the
session factory runs, a `nil` session is logged and the host skipped, and a
fresh checker is stored (its probe loop spawned) with the optimistic
increment of `localProcessHealthy`. -/
def startCheck (hc : HealthChecker) (host : Host) : HealthChecker :=
  match assocLookup hc.checkers host.addressString with
  | some _ => hc
  | none =>
    match hc.sessionFactory.newSession hc.sessionConfig host with
    | none => hc
    | some s =>
      { hc with
        checkers := (host.addressString, newChecker s host) :: hc.checkers
        localProcessHealthy := hc.localProcessHealthy + 1 }

/-- Function `healthChecker.stopCheck` from factory.go: under the mutex, a
host with a checker has it stopped and removed and `localProcessHealthy`
decremented; a host without one is left untouched. -/
def stopCheck (hc : HealthChecker) (host : Host) : HealthChecker :=
  match assocLookup hc.checkers host.addressString with
  | some _ =>
    { hc with
      checkers := assocErase hc.checkers host.addressString
      localProcessHealthy := hc.localProcessHealthy - 1 }
  | none => hc

/-- Method `healthChecker.Stop` from factory.go: `stopCheck` on every host
of every priority group of the cluster; nothing else is touched. -/
def hcStop (hc : HealthChecker) : HealthChecker :=
  (clusterHosts hc.cluster).foldl stopCheck hc

/-- Method `healthChecker.Start` from factory.go: `startCheck` on every host
of every priority group, then publish `localProcessHealthy` to the gauge. -/
def hcStart (hc : HealthChecker) : HealthChecker :=
  let hc1 := (clusterHosts hc.cluster).foldl startCheck hc
  { hc1 with stats := { hc1.stats with healthy := hc1.localProcessHealthy } }

/-- Method `healthChecker.OnClusterMemberUpdate` from factory.go:
`startCheck` on every added host, `stopCheck` on every removed host, then
publish `localProcessHealthy` to the gauge. -/
def onClusterMemberUpdate (hc : HealthChecker) (hostsAdd hostsDel : List Host) :
    HealthChecker :=
  let hc1 := hostsAdd.foldl startCheck hc
  let hc2 := hostsDel.foldl stopCheck hc1
  { hc2 with stats := { hc2.stats with healthy := hc2.localProcessHealthy } }

/-- Method `healthChecker.runCallbacks` from factory.go: publish
`localProcessHealthy` to the gauge, then invoke every registered callback in
registration order with `(host, changed, isHealthy)`; the invocations are
returned as an event list. -/
def runCallbacks (hc : HealthChecker) (host : Host) (changed isHealthy : Bool) :
    HealthChecker × List CbEvent :=
  let hc1 := { hc with stats := { hc.stats with healthy := hc.localProcessHealthy } }
  (hc1, hc1.hostCheckCallbacks.map fun cb =>
    { cb := cb, host := host, changed := changed, isHealthy := isHealthy })

/-- Method `healthChecker.getCheckInterval` from factory.go: the base
interval, plus a draw of `rander.Int63n(intervalJitter)` when the jitter is
positive. -/
def getCheckInterval (hc : HealthChecker) : Int :=
  if hc.intervalJitter > 0 then hc.intervalBase + hc.rander hc.intervalJitter
  else hc.intervalBase

/-- Method `healthChecker.incHealthy` from factory.go: increment the success
counter, increment `localProcessHealthy` when `changed`, then run the
callbacks with `isHealthy = true`. -/
def incHealthy (hc : HealthChecker) (host : Host) (changed : Bool) :
    HealthChecker × List CbEvent :=
  let hc1 := { hc with stats := { hc.stats with success := hc.stats.success + 1 } }
  let hc2 :=
    if changed then { hc1 with localProcessHealthy := hc1.localProcessHealthy + 1 }
    else hc1
  runCallbacks hc2 host changed true

/-- Method `healthChecker.decHealthy` from factory.go: increment the failure
counter, decrement `localProcessHealthy` when `changed`, increment the
counter matching the failure reason, then run the callbacks with
`isHealthy = false`. -/
def decHealthy (hc : HealthChecker) (host : Host) (reason : FailureType)
    (changed : Bool) : HealthChecker × List CbEvent :=
  let hc1 := { hc with stats := { hc.stats with failure := hc.stats.failure + 1 } }
  let hc2 :=
    if changed then { hc1 with localProcessHealthy := hc1.localProcessHealthy - 1 }
    else hc1
  let hc3 :=
    match reason with
    | FailureType.failureActive =>
      { hc2 with stats := { hc2.stats with activeFailure := hc2.stats.activeFailure + 1 } }
    | FailureType.failureNetwork =>
      { hc2 with stats := { hc2.stats with networkFailure := hc2.stats.networkFailure + 1 } }
    | FailureType.failurePassive =>
      { hc2 with stats := { hc2.stats with passiveFailure := hc2.stats.passiveFailure + 1 } }
  runCallbacks hc3 host changed false

/-! ## Concrete states used to evaluate the model -/

/-- Example host. -/
def exHost1 : Host := { addressString := "10.0.0.1:80" }

/-- Example host not present in `exHC.checkers`. -/
def exHost2 : Host := { addressString := "10.0.0.2:80" }

/-- Example cluster with two priority groups of one host each. -/
def exCluster : Cluster := { hostSetsByPriority := [[exHost1], [exHost2]] }

/-- Example session factory that always produces a session. -/
def exFactory : SessionFactory :=
  { newSession := fun _ host => some { host := host } }

/-- Example session factory that always fails (returns nil). -/
def exFactoryNil : SessionFactory :=
  { newSession := fun _ _ => none }

/-- Example checker for `exHost1`. -/
def exChecker1 : Checker := newChecker { host := exHost1 } exHost1

/-- Example orchestrator state: one active checker for `exHost1`, positive
jitter, two registered callbacks. -/
def exHC : HealthChecker :=
  { sessionConfig := []
    cluster := exCluster
    sessionFactory := exFactory
    checkers := [(exHost1.addressString, exChecker1)]
    localProcessHealthy := 1
    stats := newHealthCheckStats "svc"
    timeout := DefaultTimeout
    intervalBase := 7
    intervalJitter := 5
    healthyThreshold := 2
    unhealthyThreshold := 3
    rander := fun _ => 0
    hostCheckCallbacks := [0, 1] }

/-- Example orchestrator state with no checkers and a failing factory. -/
def exHC5 : HealthChecker :=
  { exHC with sessionFactory := exFactoryNil, checkers := [], localProcessHealthy := 0 }

/-- Example health-check configuration. -/
def exCfg : HealthCheckConfig :=
  { protocol := "SofaRpc"
    timeout := 0
    interval := 0
    intervalJitter := 5
    healthyThreshold := 2
    unhealthyThreshold := 3
    serviceName := "svc"
    sessionConfig := []
    commonCallbacks := [] }

/-- Example label map with eleven entries. -/
def exLabels11 : LabelMap :=
  [("k0", "v"), ("k1", "v"), ("k2", "v"), ("k3", "v"), ("k4", "v"), ("k5", "v"),
   ("k6", "v"), ("k7", "v"), ("k8", "v"), ("k9", "v"), ("k10", "v")]

/-! ## Theorems -/

/-- C4: a `stop()` in the idle state returns without blocking, as the spec
says — but it is not a no-op: it leaves the `stopped` flag set and a stale
token in `stopChan`, so the next `start(interval)` arms a worker that
consumes the stale token when the interval elapses and never invokes the
callback, contradicting the claimed exactly-once fire.  This theorem
evaluates the timer model on that failing operation sequence. -/
theorem claim_C4_timer_stale_stop :
    (timerStop newTimerState).stopBlocked = false ∧
    (timerElapse (timerStart (timerStop newTimerState))).callbackFires = 0 ∧
    (timerStart (timerStop newTimerState)).armed = true := by decide

/-- C3: with a random generator whose draw on a positive bound `n` lies in
`[0, n)`, `getCheckInterval` returns a value in
`[intervalBase, intervalBase + intervalJitter)` when the jitter is positive,
and exactly `intervalBase` when the jitter is zero or negative. -/
theorem claim_C3_jitter_bound (hc : HealthChecker)
    (hrand : ∀ n : Int, 0 < n → 0 ≤ hc.rander n ∧ hc.rander n < n) :
    (0 < hc.intervalJitter →
      hc.intervalBase ≤ getCheckInterval hc ∧
      getCheckInterval hc < hc.intervalBase + hc.intervalJitter) ∧
    (hc.intervalJitter ≤ 0 → getCheckInterval hc = hc.intervalBase) := by
  constructor
  · intro hJ
    have hr := hrand hc.intervalJitter hJ
    unfold getCheckInterval
    rw [if_pos hJ]
    omega
  · intro hJ
    unfold getCheckInterval
    rw [if_neg (by omega)]

/-- Witness for C3 at the concrete state `exHC` (base 7, jitter 5, draw 0). -/
theorem claim_C3_witness :
    exHC.intervalBase ≤ getCheckInterval exHC ∧
    getCheckInterval exHC < exHC.intervalBase + exHC.intervalJitter :=
  (claim_C3_jitter_bound exHC (fun n hn => ⟨le_refl 0, hn⟩)).1 (by decide)

/-- C6: `NewStats` on a label map with more than ten entries returns the
label-count-exceeded error, no metrics instance, and an unchanged store; on
a label map with at most ten entries it never returns that error. -/
theorem claim_C6_label_cap (st : List Stats) (typ : String) (labels : LabelMap) :
    (10 < labels.length →
      NewStats st typ labels = (st, Except.error StatsError.labelCountExceeded)) ∧
    (labels.length ≤ 10 →
      (NewStats st typ labels).2 ≠ Except.error StatsError.labelCountExceeded) := by
  constructor
  · intro h
    unfold NewStats
    rw [if_pos (by unfold maxLabelCount; omega)]
  · intro h
    unfold NewStats
    rw [if_neg (by unfold maxLabelCount; omega)]
    cases hfind : st.find? (fun m => m.typ == typ && mapEqual m.labels labels) <;>
      simp [hfind]

/-- Witness for C6: an eleven-entry label map is rejected with the store
left empty, and a one-entry label map is not. -/
theorem claim_C6_witness :
    NewStats [] "cluster" exLabels11 =
      ([], Except.error StatsError.labelCountExceeded) ∧
    (NewStats [] "cluster" [("service", "a")]).2 ≠
      Except.error StatsError.labelCountExceeded :=
  ⟨(claim_C6_label_cap [] "cluster" exLabels11).1 (by decide),
   (claim_C6_label_cap [] "cluster" [("service", "a")]).2 (by decide)⟩

/-- C9: `CreateHealthCheck` hands `newHealthChecker` the factory registered
for the configured protocol, or the default `TCPDialSessionFactory` when the
protocol has no registered factory. -/
theorem claim_C9_factory_fallback (registry : String → Option SessionFactory)
    (commonCbs : String → Option HealthCheckCb) (rander : Int → Int)
    (cfg : HealthCheckConfig) (cluster : Cluster) :
    (registry cfg.protocol = none →
      CreateHealthCheck registry commonCbs rander cfg cluster =
        newHealthChecker commonCbs rander cfg cluster TCPDialSessionFactory) ∧
    (∀ f, registry cfg.protocol = some f →
      CreateHealthCheck registry commonCbs rander cfg cluster =
        newHealthChecker commonCbs rander cfg cluster f) := by
  constructor
  · intro h
    unfold CreateHealthCheck
    rw [h]
  · intro f h
    unfold CreateHealthCheck
    rw [h]

/-- Witness for C9: an empty registry selects the default TCP-dial factory,
a registry knowing the protocol selects the registered factory. -/
theorem claim_C9_witness :
    CreateHealthCheck (fun _ => none) (fun _ => none) (fun _ => 0) exCfg exCluster =
      newHealthChecker (fun _ => none) (fun _ => 0) exCfg exCluster
        TCPDialSessionFactory ∧
    CreateHealthCheck (fun _ => some exFactory) (fun _ => none) (fun _ => 0)
        exCfg exCluster =
      newHealthChecker (fun _ => none) (fun _ => 0) exCfg exCluster exFactory :=
  ⟨(claim_C9_factory_fallback (fun _ => none) (fun _ => none) (fun _ => 0)
      exCfg exCluster).1 rfl,
   (claim_C9_factory_fallback (fun _ => some exFactory) (fun _ => none)
      (fun _ => 0) exCfg exCluster).2 exFactory rfl⟩

/-- C2: `startCheck` on a host whose address already has a checker is the
identity on the orchestrator state — no second checker, no increment — and
consequently `OnClusterMemberUpdate` with that host added leaves the
checkers map and `localProcessHealthy` unchanged. -/
theorem claim_C2_idempotent_add (hc : HealthChecker) (h : Host)
    (hmem : (assocLookup hc.checkers h.addressString).isSome = true) :
    startCheck hc h = hc ∧
    (onClusterMemberUpdate hc [h] []).checkers = hc.checkers ∧
    (onClusterMemberUpdate hc [h] []).localProcessHealthy =
      hc.localProcessHealthy := by
  have hstart : startCheck hc h = hc := by
    cases hl : assocLookup hc.checkers h.addressString with
    | none => rw [hl] at hmem; simp at hmem
    | some c => unfold startCheck; rw [hl]
  refine ⟨hstart, ?_, ?_⟩ <;>
    simp [onClusterMemberUpdate, hstart]

/-- Witness for C2 at the concrete state `exHC`, whose checkers map already
holds `exHost1`. -/
theorem claim_C2_witness :
    startCheck exHC exHost1 = exHC ∧
    (onClusterMemberUpdate exHC [exHost1] []).checkers = exHC.checkers ∧
    (onClusterMemberUpdate exHC [exHost1] []).localProcessHealthy =
      exHC.localProcessHealthy :=
  claim_C2_idempotent_add exHC exHost1 (by decide)

/-- C5: when the session factory returns nil for a host with no existing
checker, `startCheck` logs and returns with the orchestrator state exactly
as before — no checkers entry, no `localProcessHealthy` change — so a later
membership update re-adding the host runs the factory again from the same
state. -/
theorem claim_C5_nil_session (hc : HealthChecker) (h : Host)
    (hnone : assocLookup hc.checkers h.addressString = none)
    (hsess : hc.sessionFactory.newSession hc.sessionConfig h = none) :
    startCheck hc h = hc := by
  unfold startCheck
  rw [hnone, hsess]

/-- Witness for C5 at the concrete state `exHC5`, whose factory always
returns nil. -/
theorem claim_C5_witness : startCheck exHC5 exHost1 = exHC5 :=
  claim_C5_nil_session exHC5 exHost1 rfl rfl

/-- C8: `incHealthy` bumps the success counter by one and raises
`localProcessHealthy` exactly when `changed`; `decHealthy` bumps the failure
counter by one, lowers `localProcessHealthy` exactly when `changed`, and
bumps exactly the failure-reason counter matching `reason`; both then invoke
every registered callback in registration order with
`(host, changed, isHealthy)`. -/
theorem claim_C8_inc_dec_healthy (hc : HealthChecker) (host : Host)
    (changed : Bool) (reason : FailureType) :
    (incHealthy hc host changed).1.stats.success = hc.stats.success + 1 ∧
    (incHealthy hc host changed).1.localProcessHealthy =
      hc.localProcessHealthy + (if changed then 1 else 0) ∧
    (incHealthy hc host changed).2 =
      hc.hostCheckCallbacks.map (fun cb =>
        { cb := cb, host := host, changed := changed, isHealthy := true }) ∧
    (decHealthy hc host reason changed).1.stats.failure = hc.stats.failure + 1 ∧
    (decHealthy hc host reason changed).1.localProcessHealthy =
      hc.localProcessHealthy - (if changed then 1 else 0) ∧
    (decHealthy hc host reason changed).1.stats.activeFailure =
      hc.stats.activeFailure +
        (if reason = FailureType.failureActive then 1 else 0) ∧
    (decHealthy hc host reason changed).1.stats.networkFailure =
      hc.stats.networkFailure +
        (if reason = FailureType.failureNetwork then 1 else 0) ∧
    (decHealthy hc host reason changed).1.stats.passiveFailure =
      hc.stats.passiveFailure +
        (if reason = FailureType.failurePassive then 1 else 0) ∧
    (decHealthy hc host reason changed).2 =
      hc.hostCheckCallbacks.map (fun cb =>
        { cb := cb, host := host, changed := changed, isHealthy := false }) := by
  cases changed <;> cases reason <;>
    simp [incHealthy, decHealthy, runCallbacks]

/-- Unfolding lemma for the `getRouterHeaders` loop: folding the loop body
from any accumulator appends exactly the entries described by
`getRouterHeadersSpec`. -/
theorem getRouterHeaders_foldl (compile : String → Option CompiledRegex)
    (headers : List HeaderMatcher) :
    ∀ acc : List HeaderData,
      headers.foldl (getRouterHeadersStep compile) acc =
        acc ++ getRouterHeadersSpec compile headers := by
  induction headers with
  | nil =>
    intro acc
    simp [getRouterHeadersSpec]
  | cons header rest ih =>
    intro acc
    simp only [List.foldl_cons]
    rw [ih]
    unfold getRouterHeadersSpec
    simp only [List.filterMap_cons]
    unfold getRouterHeadersStep
    cases hreg : header.regex with
    | false => simp [hreg, getRouterHeadersSpec]
    | true =>
      cases hcompile : compile header.name with
      | none => simp [hreg, hcompile, getRouterHeadersSpec]
      | some r => simp [hreg, hcompile, getRouterHeadersSpec]

/-- C10: `getRouterHeaders` returns, in input order, exactly the matchers
described by the claim — a regex matcher is kept with a nil compiled pattern
precisely when compiling its name fails, it is dropped when compiling
succeeds, and a non-regex matcher is always kept. -/
theorem claim_C10_router_headers (compile : String → Option CompiledRegex)
    (headers : List HeaderMatcher) :
    getRouterHeaders compile headers = getRouterHeadersSpec compile headers := by
  have h := getRouterHeaders_foldl compile headers []
  simpa [getRouterHeaders] using h

/-- Lookup returns `none` exactly when the key is absent. -/
theorem assocLookup_eq_none_iff {α : Type} :
    ∀ (l : List (String × α)) (k : String),
      assocLookup l k = none ↔ k ∉ l.map Prod.fst := by
  intro l
  induction l with
  | nil => intro k; simp [assocLookup]
  | cons kv rest ih =>
    intro k
    obtain ⟨k1, v1⟩ := kv
    unfold assocLookup
    by_cases hk : k1 = k
    · simp [hk]
    · simp [hk, ih k, Ne.symm hk]

/-- A successful lookup locates an entry of the list. -/
theorem assocLookup_mem {α : Type} :
    ∀ {l : List (String × α)} {k : String} {v : α},
      assocLookup l k = some v → (k, v) ∈ l := by
  intro l
  induction l with
  | nil => intro k v h; simp [assocLookup] at h
  | cons kv rest ih =>
    intro k v h
    obtain ⟨k1, v1⟩ := kv
    unfold assocLookup at h
    by_cases hk : k1 = k
    · rw [if_pos hk] at h
      obtain rfl := Option.some.inj h
      subst hk
      exact List.mem_cons_self _ _
    · rw [if_neg hk] at h
      exact List.mem_cons_of_mem _ (ih h)

/-- With distinct keys, every entry of the list is what lookup returns. -/
theorem assocLookup_of_mem {α : Type} :
    ∀ {l : List (String × α)} {k : String} {v : α},
      (l.map Prod.fst).Nodup → (k, v) ∈ l → assocLookup l k = some v := by
  intro l
  induction l with
  | nil => intro k v _ hm; simp at hm
  | cons kv rest ih =>
    intro k v hnd hm
    obtain ⟨k1, v1⟩ := kv
    rw [List.map_cons, List.nodup_cons] at hnd
    rcases List.mem_cons.mp hm with heq | hm2
    · injection heq with hk hv
      subst hk
      subst hv
      unfold assocLookup
      rw [if_pos rfl]
    · unfold assocLookup
      by_cases hk : k1 = k
      · exfalso
        apply hnd.1
        subst hk
        exact List.mem_map.mpr ⟨(k1, v), hm2, rfl⟩
      · rw [if_neg hk]
        exact ih hnd.2 hm2

/-- Erasing is a sublist operation. -/
theorem assocErase_sublist {α : Type} :
    ∀ (l : List (String × α)) (k : String), (assocErase l k).Sublist l := by
  intro l
  induction l with
  | nil => intro k; simp [assocErase]
  | cons kv rest ih =>
    intro k
    obtain ⟨k1, v1⟩ := kv
    unfold assocErase
    by_cases hk : k1 = k
    · rw [if_pos hk]
      exact List.sublist_cons_self _ _
    · rw [if_neg hk]
      exact List.Sublist.cons₂ _ (ih k)

/-- Erasing the looked-up key of a duplicate-free list empties that key. -/
theorem assocLookup_assocErase_self {α : Type} :
    ∀ {l : List (String × α)} {k : String},
      (l.map Prod.fst).Nodup → assocLookup (assocErase l k) k = none := by
  intro l
  induction l with
  | nil => intro k _; simp [assocErase, assocLookup]
  | cons kv rest ih =>
    intro k hnd
    obtain ⟨k1, v1⟩ := kv
    rw [List.map_cons, List.nodup_cons] at hnd
    unfold assocErase
    by_cases hk : k1 = k
    · rw [if_pos hk]
      rw [assocLookup_eq_none_iff]
      subst hk
      exact hnd.1
    · rw [if_neg hk]
      unfold assocLookup
      rw [if_neg hk]
      exact ih hnd.2

/-- Erasing any key never makes an absent key present. -/
theorem assocLookup_assocErase_none {α : Type} :
    ∀ {l : List (String × α)} {a k : String},
      assocLookup l a = none → assocLookup (assocErase l k) a = none := by
  intro l a k h
  rw [assocLookup_eq_none_iff] at h ⊢
  intro hmem
  exact h (((assocErase_sublist l k).map Prod.fst).mem hmem)

/-- A found key makes the erased list exactly one entry shorter. -/
theorem assocErase_length {α : Type} :
    ∀ {l : List (String × α)} {k : String} {v : α},
      assocLookup l k = some v → (assocErase l k).length + 1 = l.length := by
  intro l
  induction l with
  | nil => intro k v h; simp [assocLookup] at h
  | cons kv rest ih =>
    intro k v h
    obtain ⟨k1, v1⟩ := kv
    unfold assocLookup at h
    unfold assocErase
    by_cases hk : k1 = k
    · rw [if_pos hk]
      simp
    · rw [if_neg hk] at h
      rw [if_neg hk, List.length_cons, List.length_cons, ih h]

/-- Effect of one `stopCheck` on the orchestrator: stats untouched, the
host's address absent afterwards, `localProcessHealthy` down by exactly the
number of removed entries, key distinctness kept, absent keys kept absent. -/
theorem stopCheck_step (hc : HealthChecker) (h : Host)
    (hnd : (hc.checkers.map Prod.fst).Nodup) :
    (stopCheck hc h).stats = hc.stats ∧
    assocLookup (stopCheck hc h).checkers h.addressString = none ∧
    (stopCheck hc h).localProcessHealthy =
      hc.localProcessHealthy -
        ((hc.checkers.length : Int) - ((stopCheck hc h).checkers.length : Int)) ∧
    ((stopCheck hc h).checkers.map Prod.fst).Nodup ∧
    (∀ a, assocLookup hc.checkers a = none →
      assocLookup (stopCheck hc h).checkers a = none) := by
  cases hl : assocLookup hc.checkers h.addressString with
  | none =>
    have heq : stopCheck hc h = hc := by unfold stopCheck; rw [hl]
    rw [heq]
    exact ⟨rfl, hl, by omega, hnd, fun a ha => ha⟩
  | some c =>
    have heq : stopCheck hc h =
        { hc with
          checkers := assocErase hc.checkers h.addressString
          localProcessHealthy := hc.localProcessHealthy - 1 } := by
      unfold stopCheck; rw [hl]
    rw [heq]
    refine ⟨rfl, ?_, ?_, ?_, ?_⟩
    · exact assocLookup_assocErase_self hnd
    · have hlen := assocErase_length hl
      show hc.localProcessHealthy - 1 =
        hc.localProcessHealthy -
          ((hc.checkers.length : Int) -
            ((assocErase hc.checkers h.addressString).length : Int))
      omega
    · exact ((assocErase_sublist _ _).map Prod.fst).nodup hnd
    · intro a ha
      exact assocLookup_assocErase_none ha

/-- Effect of `stopCheck` folded over a host list, by induction on the
list. -/
theorem foldl_stopCheck (hosts : List Host) :
    ∀ hc : HealthChecker, (hc.checkers.map Prod.fst).Nodup →
      (hosts.foldl stopCheck hc).stats = hc.stats ∧
      (∀ h ∈ hosts,
        assocLookup (hosts.foldl stopCheck hc).checkers h.addressString = none) ∧
      (hosts.foldl stopCheck hc).localProcessHealthy =
        hc.localProcessHealthy -
          ((hc.checkers.length : Int) -
            ((hosts.foldl stopCheck hc).checkers.length : Int)) ∧
      ((hosts.foldl stopCheck hc).checkers.map Prod.fst).Nodup ∧
      (∀ a, assocLookup hc.checkers a = none →
        assocLookup (hosts.foldl stopCheck hc).checkers a = none) := by
  induction hosts with
  | nil =>
    intro hc hnd
    simp only [List.foldl_nil]
    refine ⟨?_, ?_, ?_, hnd, fun a ha => ha⟩
    · trivial
    · intro h hmem
      exact absurd hmem (List.not_mem_nil h)
    · omega
  | cons h t ih =>
    intro hc hnd
    obtain ⟨hs, hlk, hlph, hnd1, hpres⟩ := stopCheck_step hc h hnd
    obtain ⟨rs, rlk, rlph, rnd, rpres⟩ := ih (stopCheck hc h) hnd1
    simp only [List.foldl_cons]
    refine ⟨rs.trans hs, ?_, by omega, rnd, ?_⟩
    · intro h2 hmem
      rcases List.mem_cons.mp hmem with heq | hmem2
      · subst heq
        exact rpres h2.addressString hlk
      · exact rlk h2 hmem2
    · intro a ha
      exact rpres a (hpres a ha)

/-- C1 counterexample to the claim as stated: on a state with one active
checker for a cluster host, `Stop()` changes `localProcessHealthy` (the
source decrements it for every removed checker), so the counter does not
hold the same value as before the call. -/
theorem claim_C1_counterexample :
    (hcStop exHC).localProcessHealthy ≠ exHC.localProcessHealthy := by decide

/-- C1 amended: on a state whose checker keys are distinct, `Stop()` removes
the checkers map entry of every cluster host and leaves the stats fields
unchanged, but decrements `localProcessHealthy` by one for each checker it
removed (rather than leaving it unchanged). -/
theorem claim_C1_stop_effect (hc : HealthChecker)
    (hnd : (hc.checkers.map Prod.fst).Nodup) :
    (hcStop hc).stats = hc.stats ∧
    (∀ h ∈ clusterHosts hc.cluster,
      assocLookup (hcStop hc).checkers h.addressString = none) ∧
    (hcStop hc).localProcessHealthy =
      hc.localProcessHealthy -
        ((hc.checkers.length : Int) - ((hcStop hc).checkers.length : Int)) := by
  unfold hcStop
  obtain ⟨hs, hlk, hlph, _, _⟩ := foldl_stopCheck (clusterHosts hc.cluster) hc hnd
  exact ⟨hs, hlk, hlph⟩

/-- Witness for the amended C1 at the concrete state `exHC`. -/
theorem claim_C1_witness :
    (hcStop exHC).stats = exHC.stats ∧
    assocLookup (hcStop exHC).checkers exHost1.addressString = none ∧
    (hcStop exHC).localProcessHealthy =
      exHC.localProcessHealthy -
        ((exHC.checkers.length : Int) - ((hcStop exHC).checkers.length : Int)) :=
  ⟨(claim_C1_stop_effect exHC (by decide)).1,
   (claim_C1_stop_effect exHC (by decide)).2.1 exHost1 (by decide),
   (claim_C1_stop_effect exHC (by decide)).2.2⟩

/-- Characterization of `mapEqual`: equal sizes and every entry of the first
map found unchanged in the second. -/
theorem mapEqual_iff (x y : LabelMap) :
    mapEqual x y = true ↔
      x.length = y.length ∧ ∀ kv ∈ x, assocLookup y kv.1 = some kv.2 := by
  unfold mapEqual
  by_cases h : x.length = y.length
  · rw [if_neg (by simp [h])]
    simp [List.all_eq_true, h]
  · rw [if_pos h]
    simp [h]

/-- Transitivity of `mapEqual`. -/
theorem mapEqual_trans {x y z : LabelMap} (hxy : mapEqual x y = true)
    (hyz : mapEqual y z = true) : mapEqual x z = true := by
  rw [mapEqual_iff] at hxy hyz ⊢
  obtain ⟨hl1, he1⟩ := hxy
  obtain ⟨hl2, he2⟩ := hyz
  refine ⟨hl1.trans hl2, fun kv hkv => ?_⟩
  exact he2 (kv.1, kv.2) (assocLookup_mem (he1 kv hkv))

/-- Symmetry of `mapEqual` on label maps with distinct keys (the shape every
Go map has). -/
theorem mapEqual_symm {x y : LabelMap}
    (hx : (x.map Prod.fst).Nodup) (hy : (y.map Prod.fst).Nodup)
    (hxy : mapEqual x y = true) : mapEqual y x = true := by
  rw [mapEqual_iff] at hxy ⊢
  obtain ⟨hl, he⟩ := hxy
  refine ⟨hl.symm, ?_⟩
  have hsub : x.map Prod.fst ⊆ y.map Prod.fst := by
    intro k hk
    obtain ⟨a, hmem, rfl⟩ := List.mem_map.mp hk
    exact List.mem_map.mpr ⟨(a.1, a.2), assocLookup_mem (he a hmem), rfl⟩
  have hperm : (x.map Prod.fst).Perm (y.map Prod.fst) := by
    refine (List.subperm_of_subset hx hsub).perm_of_length_le ?_
    simp [hl]
  intro kv hkv
  obtain ⟨k2, v2⟩ := kv
  have hk_in_x : k2 ∈ x.map Prod.fst := by
    have hk_in_y : k2 ∈ y.map Prod.fst := List.mem_map.mpr ⟨(k2, v2), hkv, rfl⟩
    exact hperm.symm.subset hk_in_y
  obtain ⟨⟨k3, v3⟩, hmx, hfst⟩ := List.mem_map.mp hk_in_x
  have hk3 : k3 = k2 := hfst
  subst hk3
  have hly : assocLookup y k3 = some v3 := he (k3, v3) hmx
  have hly2 : assocLookup y k3 = some v2 := assocLookup_of_mem hy hkv
  have hv : v3 = v2 := by
    rw [hly] at hly2
    exact Option.some.inj hly2
  subst hv
  exact assocLookup_of_mem hx hmx

/-- Two label maps equal as maps in both directions test equal against any
third map. -/
theorem mapEqual_congr_right {x y1 y2 : LabelMap}
    (h12 : mapEqual y1 y2 = true) (h21 : mapEqual y2 y1 = true) :
    mapEqual x y1 = mapEqual x y2 := by
  cases hx1 : mapEqual x y1 with
  | true => exact (mapEqual_trans hx1 h12).symm
  | false =>
    cases hx2 : mapEqual x y2 with
    | false => rfl
    | true => exact absurd (mapEqual_trans hx2 h21) (by simp [hx1])

/-- Pointwise equal predicates find the same element. -/
theorem find?_congr {α : Type} {p q : α → Bool} (hpq : ∀ a, p a = q a) :
    ∀ l : List α, l.find? p = l.find? q := by
  intro l
  induction l with
  | nil => rfl
  | cons a t ih =>
    rw [List.find?_cons, List.find?_cons, hpq a]
    cases q a
    · exact ih
    · rfl

/-- C7: `NewStats` deduplicates by type and label set — when a first call
with `labels1` succeeds, a second call with the same type and a label map
equal to `labels1` (same distinct keys, same values) returns the very
metrics instance of the first call and leaves the store unchanged. -/
theorem claim_C7_dedup (st st1 : List Stats) (typ : String)
    (labels1 labels2 : LabelMap) (m : Stats)
    (h1 : (labels1.map Prod.fst).Nodup) (h2 : (labels2.map Prod.fst).Nodup)
    (heq : mapEqual labels1 labels2 = true)
    (hfirst : NewStats st typ labels1 = (st1, Except.ok m)) :
    NewStats st1 typ labels2 = (st1, Except.ok m) := by
  have heq21 : mapEqual labels2 labels1 = true := mapEqual_symm h1 h2 heq
  have hlen : labels1.length = labels2.length := ((mapEqual_iff _ _).mp heq).1
  have hpeq : ∀ m' : Stats,
      (m'.typ == typ && mapEqual m'.labels labels2) =
        (m'.typ == typ && mapEqual m'.labels labels1) := by
    intro m'
    rw [mapEqual_congr_right heq heq21]
  unfold NewStats at hfirst ⊢
  by_cases hcap : labels1.length > maxLabelCount
  · rw [if_pos hcap] at hfirst
    exact absurd (congrArg Prod.snd hfirst) (by simp)
  · rw [if_neg hcap] at hfirst
    cases hfind : st.find? (fun m' => m'.typ == typ && mapEqual m'.labels labels1) with
    | some m0 =>
      rw [hfind] at hfirst
      have hst : st = st1 := congrArg Prod.fst hfirst
      have hm : Except.ok (ε := StatsError) m0 = Except.ok m :=
        congrArg Prod.snd hfirst
      injection hm with hm0
      subst hst
      rw [if_neg (show ¬labels2.length > maxLabelCount by omega)]
      rw [find?_congr hpeq st, hfind, hm0]
    | none =>
      rw [hfind] at hfirst
      have hst : st ++ [{ typ := typ, labels := labels1 }] = st1 :=
        congrArg Prod.fst hfirst
      have hm : Except.ok (ε := StatsError) { typ := typ, labels := labels1 } =
          Except.ok m := congrArg Prod.snd hfirst
      injection hm with hm0
      subst hst
      rw [if_neg (show ¬labels2.length > maxLabelCount by omega)]
      rw [List.find?_append, find?_congr hpeq st, hfind]
      have hsingle : ([{ typ := typ, labels := labels1 }] : List Stats).find?
          (fun m' => m'.typ == typ && mapEqual m'.labels labels2) =
          some { typ := typ, labels := labels1 } := by
        rw [List.find?_cons]
        simp [heq]
      rw [hsingle, hm0]
      rfl

/-- Witness for C7: creating, then re-requesting, the same (type, label-set)
pair returns the instance created first without growing the store. -/
theorem claim_C7_witness :
    NewStats [{ typ := "t", labels := [("a", "1")] }] "t" [("a", "1")] =
      ([{ typ := "t", labels := [("a", "1")] }],
       Except.ok { typ := "t", labels := [("a", "1")] }) :=
  claim_C7_dedup [] [{ typ := "t", labels := [("a", "1")] }] "t"
    [("a", "1")] [("a", "1")] { typ := "t", labels := [("a", "1")] }
    (by decide) (by decide) (by decide) rfl
